import Mathlib

/-!
Verification of the tf-dialect core (validator and generator) against its
natural-language specification.

The TypeScript sources are shallowly embedded: each source function becomes a
Lean definition of the same name (where Lean allows), operating on `String` /
`List Char`.  The concrete regular expressions appearing literally in the
source are hand-translated into character-level scanning functions; the
user-supplied forbidden-pattern expressions (arbitrary regex source strings
compiled at runtime with `new RegExp`) are embedded as an abstract compiled
matcher `Option Regex` (`some r` when the expression compiles to the matcher
`r`, `none` when compilation fails), with leftmost match semantics given by
Brzozowski derivatives.  The JavaScript `exec` loop of the forbidden-pattern
check is modelled with explicit fuel; a `none` result marks the run that never
reaches the exit condition of the loop (the JavaScript original spins forever
in that case, since `exec` on a zero-length match does not advance
`lastIndex`, so a repeated `lastIndex` repeats the same match indefinitely).
-/

namespace TfDialect

/-! ## Data model (src/config.ts) -/

/-- Severity of a violation, the closed enumeration of src/validator.ts. -/
inductive Severity where
  | info
  | warn
  | error
deriving DecidableEq, Repr

/-- Source: interface Violation of src/validator.ts. -/
structure Violation where
  ruleId : String
  severity : Severity
  message : String
  line : Option Nat
  suggestion : Option String
deriving DecidableEq, Repr

/-- Source: interface ValidationResult of src/validator.ts. -/
structure ValidationResult where
  valid : Bool
  violations : List Violation
deriving DecidableEq, Repr

/-- Abstract compiled regular expression for forbidden-pattern match
expressions (the source compiles the pattern string with new RegExp at
validation time). -/
inductive Regex where
  | void
  | epsilon
  | char (c : Char)
  | concat (r1 r2 : Regex)
  | alt (r1 r2 : Regex)
  | star (r : Regex)
deriving DecidableEq, Repr

/-- A JavaScript value stored in a security-defaults record
(boolean or string or number). -/
inductive ConfigValue where
  | boolV (b : Bool)
  | strV (s : String)
  | numV (n : Int)
deriving DecidableEq, Repr

/-- JavaScript truthiness of a ConfigValue. -/
def truthy : ConfigValue → Bool
  | ConfigValue.boolV b => b
  | ConfigValue.strV s => !(s == "")
  | ConfigValue.numV n => !(n == 0)

/-- JavaScript truthiness of an optional record field (undefined is falsy). -/
def truthyOpt : Option ConfigValue → Bool
  | none => false
  | some v => truthy v

/-- JavaScript string conversion of a ConfigValue, as used by template-literal
interpolation in the generator. -/
def jsToString : ConfigValue → String
  | ConfigValue.boolV true => "true"
  | ConfigValue.boolV false => "false"
  | ConfigValue.strV s => s
  | ConfigValue.numV n => toString n

/-- Source: interface ForbiddenPattern of src/config.ts.  The field `match`
(a regex source string) is embedded as its compiled matcher; `none` embeds a
string that fails to compile.  `match` is a Lean keyword, hence `matchExpr`. -/
structure ForbiddenPattern where
  description : String
  matchExpr : Option Regex
deriving DecidableEq, Repr

/-- Source: interface NamingConfig of src/config.ts (only the field the core
reads). -/
structure NamingConfig where
  resource_format : Option String
deriving DecidableEq, Repr

/-- Source: interface TaggingConfig of src/config.ts. -/
structure TaggingConfig where
  required_tags : Option (List String)
  defaults : Option (List (String × String))
deriving DecidableEq, Repr

/-- Source: interface ProvidersConfig of src/config.ts (only the field the
core reads). -/
structure ProvidersConfig where
  forbidden_patterns : Option (List ForbiddenPattern)
deriving DecidableEq, Repr

/-- Source: interface SecurityDefaultsConfig of src/config.ts; the records
are embedded as association lists. -/
structure SecurityDefaultsConfig where
  s3_bucket : Option (List (String × ConfigValue))
  rds : Option (List (String × ConfigValue))
deriving DecidableEq, Repr

/-- Source: interface TerraformStyleConfig of src/config.ts (the fields the
core reads). -/
structure TerraformStyleConfig where
  naming : Option NamingConfig
  tagging : Option TaggingConfig
  providers : Option ProvidersConfig
  security_defaults : Option SecurityDefaultsConfig
deriving DecidableEq, Repr

/-- Record lookup in an embedded security-defaults record. -/
def lookupSetting (m : List (String × ConfigValue)) (k : String) : Option ConfigValue :=
  match m with
  | [] => none
  | kv :: rest => if kv.1 == k then some kv.2 else lookupSetting rest k

/-- Record lookup in an embedded string record. -/
def lookupStr (m : List (String × String)) (k : String) : Option String :=
  match m with
  | [] => none
  | kv :: rest => if kv.1 == k then some kv.2 else lookupStr rest k

/-! ## JavaScript string-scanning primitives -/

/-- JavaScript regex whitespace class backslash-s (ECMA-262 WhiteSpace and
LineTerminator). -/
def jsWs (c : Char) : Bool :=
  c == ' ' || c == '\t' || c == '\n' || c == '\r' || c == '\x0b' || c == '\x0c' ||
  c.toNat == 0xa0 || c.toNat == 0x1680 ||
  (0x2000 ≤ c.toNat && c.toNat ≤ 0x200a) ||
  c.toNat == 0x2028 || c.toNat == 0x2029 || c.toNat == 0x202f || c.toNat == 0x205f ||
  c.toNat == 0x3000 || c.toNat == 0xfeff

/-- Consume a case-sensitive literal, returning the rest of the input. -/
def stripLit : List Char → List Char → Option (List Char)
  | [], cs => some cs
  | _ :: _, [] => none
  | p :: ps, c :: cs => if c == p then stripLit ps cs else none

/-- Consume a case-insensitive literal (the regex flag i), returning the rest
of the input. -/
def stripLitCI : List Char → List Char → Option (List Char)
  | [], cs => some cs
  | _ :: _, [] => none
  | p :: ps, c :: cs => if c.toLower == p.toLower then stripLitCI ps cs else none

/-- Does the predicate hold at some suffix of the input (regex search without
anchors tries every start position, including the end of the string)? -/
def anySuffix (p : List Char → Bool) : List Char → Bool
  | [] => p []
  | c :: rest => p (c :: rest) || anySuffix p rest

/-- Line number of a character index, source function getLineNumber:
code.substring(0, index).split(backslash-n).length. -/
def getLineNumber (cs : List Char) (index : Nat) : Nat :=
  ((cs.take index).filter (fun c => c == '\n')).length + 1

/-- Array.prototype.join with a separator. -/
def joinSep (sep : String) : List String → String
  | [] => ""
  | [s] => s
  | s :: rest => s ++ sep ++ joinSep sep rest

/-! ## Required-tag check (validateRequiredTags of src/validator.ts) -/

/-- Content captured by the tag-block regex when it matches at the head of
the input: after the literal head, take every character up to the first
closing brace; fail when no closing brace follows. -/
def captureToRBrace : List Char → Option (List Char)
  | [] => none
  | c :: rest =>
    if c == '\x7d' then some []
    else (captureToRBrace rest).map (fun content => c :: content)

/-- Match of the regex tags backslash-s* = backslash-s* brace [caret-brace]*
brace (flag s) at the head of the input, returning the captured content. -/
def tagsBlockAt (cs : List Char) : Option (List Char) :=
  match stripLit "tags".data cs with
  | none => none
  | some r1 =>
    match r1.dropWhile jsWs with
    | '=' :: r2 =>
      match r2.dropWhile jsWs with
      | '\x7b' :: r3 => captureToRBrace r3
      | _ => none
    | _ => none

/-- First (leftmost) match of the tag-block regex, with its start index:
source expression code.match on the tags-block pattern. -/
def findTagsBlock : List Char → Nat → Option (Nat × List Char)
  | [], _ => none
  | c :: rest, idx =>
    match tagsBlockAt (c :: rest) with
    | some content => some (idx, content)
    | none => findTagsBlock rest (idx + 1)

/-- Test for backslash-s* = at the head of the input. -/
def wsThenEq (cs : List Char) : Bool :=
  match cs.dropWhile jsWs with
  | '=' :: _ => true
  | _ => false

/-- Quote characters admitted by the tag-key regex character class. -/
def isQuote (c : Char) : Bool := c == '"' || c == '\x27'

/-- Match, at the head of the input, of the dynamically built regex
quote? TAG quote? backslash-s* = (flag i), the tag name taken literally.
Both optional quotes are tried consumed and not consumed. -/
def tagMatchAt (tag : List Char) (cs : List Char) : Bool :=
  let afterTag : List Char → Bool := fun r =>
    match r with
    | [] => wsThenEq []
    | q :: r2 => if isQuote q then (wsThenEq r2 || wsThenEq (q :: r2)) else wsThenEq (q :: r2)
  let core : List Char → Bool := fun c2 =>
    match stripLitCI tag c2 with
    | none => false
    | some r => afterTag r
  match cs with
  | [] => core []
  | q :: c2 => if isQuote q then (core c2 || core (q :: c2)) else core (q :: c2)

/-- Source expression tagPattern.test(tagsContent): does the tag-key regex
match anywhere in the captured tag-block content? -/
def tagPresent (tag : String) (content : List Char) : Bool :=
  anySuffix (tagMatchAt tag.data) content

/-- Source: requiredTags = config.tagging?.required_tags or []. -/
def requiredTagsOf (config : TerraformStyleConfig) : List String :=
  (config.tagging.bind (fun t => t.required_tags)).getD []

/-- Source function validateRequiredTags of src/validator.ts. -/
def validateRequiredTags (code : String) (config : TerraformStyleConfig) : List Violation :=
  let requiredTags := requiredTagsOf config
  if requiredTags.length == 0 then []
  else
    match findTagsBlock code.data 0 with
    | none =>
      [{ ruleId := "missing_tags_block", severity := Severity.error,
         message := "No tags block found", line := none,
         suggestion := some ("Add a tags block with required tags: " ++ joinSep ", " requiredTags) }]
    | some (idx, tagsContent) =>
      let missingTags := requiredTags.filter (fun tag => !(tagPresent tag tagsContent))
      if missingTags.length > 0 then
        [{ ruleId := "required_tag_missing", severity := Severity.error,
           message := "Missing required tags: " ++ joinSep ", " missingTags,
           line := some (getLineNumber code.data idx),
           suggestion := some ("Add the following tags: " ++
             joinSep ", " (missingTags.map (fun t => t ++ " = \"...\""))) }]
      else []

/-! ## Forbidden-pattern check (validateForbiddenPatterns of src/validator.ts)

The compiled matcher semantics: Brzozowski derivatives give, at each start
position, the set of match lengths; the engine takes the leftmost start
position with a match and there the longest length. -/

/-- Does the regex accept the empty string? -/
def nullable : Regex → Bool
  | Regex.void => false
  | Regex.epsilon => true
  | Regex.char _ => false
  | Regex.concat r1 r2 => nullable r1 && nullable r2
  | Regex.alt r1 r2 => nullable r1 || nullable r2
  | Regex.star _ => true

/-- Brzozowski derivative of a regex by one character. -/
def deriv (c : Char) : Regex → Regex
  | Regex.void => Regex.void
  | Regex.epsilon => Regex.void
  | Regex.char d => if d == c then Regex.epsilon else Regex.void
  | Regex.concat r1 r2 =>
    if nullable r1 then Regex.alt (Regex.concat (deriv c r1) r2) (deriv c r2)
    else Regex.concat (deriv c r1) r2
  | Regex.alt r1 r2 => Regex.alt (deriv c r1) (deriv c r2)
  | Regex.star r => Regex.concat (deriv c r) (Regex.star r)

/-- Length of the longest match of the regex at the start of the input,
none when no prefix (not even the empty one) is accepted. -/
def longestMatchLen (r : Regex) : List Char → Option Nat
  | [] => if nullable r then some 0 else none
  | c :: cs =>
    match longestMatchLen (deriv c r) cs with
    | some l => some (l + 1)
    | none => if nullable r then some 0 else none

/-- Leftmost match of the regex in the input: offset of the first start
position admitting a match, and the match length there. -/
def searchLeftmost (r : Regex) : List Char → Option (Nat × Nat)
  | [] => match longestMatchLen r [] with
    | some l => some (0, l)
    | none => none
  | c :: cs =>
    match longestMatchLen r (c :: cs) with
    | some l => some (0, l)
    | none => (searchLeftmost r cs).map (fun m => (m.1 + 1, m.2))

/-- Fueled translation of the source loop while ((match = regex.exec(code))
with a global regex: from lastIndex li, exec returns null once li exceeds the
length, else searches forward from li; a successful exec sets lastIndex to
match.index + match-length.  Fuel exhaustion (the none result) marks a run
whose lastIndex stops advancing, which in JavaScript repeats the same
zero-length match forever. -/
def execLoopAux (r : Regex) (s : List Char) : Nat → Nat → Option (List (Nat × Nat))
  | 0, _ => none
  | fuel + 1, li =>
    if s.length < li then some []
    else
      match searchLeftmost r (s.drop li) with
      | none => some []
      | some (off, len) =>
        (execLoopAux r s fuel (li + off + len)).map (fun ms => (li + off, len) :: ms)

/-- All matches produced by the source exec loop, starting at lastIndex 0.
A terminating JavaScript run advances lastIndex at every step and so performs
at most length + 2 iterations; with that much fuel, exhaustion coincides with
divergence of the original. -/
def execMatches (r : Regex) (s : List Char) : Option (List (Nat × Nat)) :=
  execLoopAux r s (s.length + 2) 0

/-- Source: patterns = config.providers?.forbidden_patterns or []. -/
def forbiddenPatternsOf (config : TerraformStyleConfig) : List ForbiddenPattern :=
  (config.providers.bind (fun p => p.forbidden_patterns)).getD []

/-- Violations contributed by one forbidden pattern: a pattern whose match
expression fails to compile is caught, logged and skipped (contributing
nothing); divergence of the exec loop propagates. -/
def forbiddenForPattern (code : List Char) (p : ForbiddenPattern) : Option (List Violation) :=
  match p.matchExpr with
  | none => some []
  | some r =>
    (execMatches r code).map (List.map (fun m =>
      { ruleId := "forbidden_pattern", severity := Severity.error,
        message := p.description, line := some (getLineNumber code m.1),
        suggestion := some "Remove or replace this forbidden pattern" }))

/-- Loop over the declared patterns in order; a diverging exec loop in any
pattern makes the whole call diverge. -/
def forbiddenLoop (code : List Char) : List ForbiddenPattern → Option (List Violation)
  | [] => some []
  | p :: ps =>
    match forbiddenForPattern code p with
    | none => none
    | some vs => (forbiddenLoop code ps).map (fun rest => vs ++ rest)

/-- Source function validateForbiddenPatterns of src/validator.ts. -/
def validateForbiddenPatterns (code : String) (config : TerraformStyleConfig) :
    Option (List Violation) :=
  forbiddenLoop code.data (forbiddenPatternsOf config)

/-- Independent specification-side list of the non-overlapping matches of a
regex in the input (the semantics of a global regex scan that always makes
progress, advancing past each match and by one position past a zero-length
match), with absolute indices. -/
def specMatchesFromAux (r : Regex) : Nat → List Char → Nat → List (Nat × Nat)
  | 0, _, _ => []
  | _ + 1, [], idx => if nullable r then [(idx, 0)] else []
  | fuel + 1, c :: rest, idx =>
    match searchLeftmost r (c :: rest) with
    | none => []
    | some (off, len) =>
      (idx + off, len) ::
        specMatchesFromAux r fuel (rest.drop (off + (max len 1) - 1)) (idx + off + max len 1)

/-- Wrapper passing enough fuel: every step consumes at least one character,
so length-plus-one steps always reach the end of the input. -/
def specMatchesFrom (r : Regex) (suffix : List Char) (idx : Nat) : List (Nat × Nat) :=
  specMatchesFromAux r (suffix.length + 1) suffix idx

/-- Non-overlapping matches of a regex in the whole input. -/
def specMatches (r : Regex) (s : List Char) : List (Nat × Nat) :=
  specMatchesFrom r s 0

/-! ## Security-defaults check (validateSecurityDefaults of src/validator.ts) -/

/-- Match of KEY backslash-s* = backslash-s* true (flag i) at the head of the
input. -/
def keyEqTrueAt (key : String) (cs : List Char) : Bool :=
  match stripLitCI key.data cs with
  | none => false
  | some r1 =>
    match (r1.dropWhile jsWs) with
    | '=' :: r2 =>
      match stripLitCI "true".data (r2.dropWhile jsWs) with
      | some _ => true
      | none => false
    | _ => false

/-- Test of the regex KEY backslash-s* = backslash-s* true (flag i) anywhere
in the code. -/
def hasKeyEqTrue (key : String) (code : List Char) : Bool :=
  anySuffix (keyEqTrueAt key) code

/-- Match of versioning backslash-s* [=brace] (flag i) at the head of the
input. -/
def versioningMarkAt (cs : List Char) : Bool :=
  match stripLitCI "versioning".data cs with
  | none => false
  | some r1 =>
    match r1.dropWhile jsWs with
    | c :: _ => c == '=' || c == '\x7b'
    | [] => false

/-- Test of the regex versioning backslash-s* [=brace] (flag i) anywhere in
the code. -/
def hasVersioningMark (code : List Char) : Bool :=
  anySuffix versioningMarkAt code

/-- Test of the regex encryption (flag i) anywhere in the code. -/
def hasEncryptionWord (code : List Char) : Bool :=
  anySuffix (fun cs => (stripLitCI "encryption".data cs).isSome) code

/-- The three boolean S3 checks of the source: key, presence test, and
suggestion. -/
def s3Checks : List (String × (List Char → Bool) × String) :=
  [("block_public_acls", hasKeyEqTrue "block_public_acls", "Set block_public_acls = true"),
   ("block_public_policy", hasKeyEqTrue "block_public_policy", "Set block_public_policy = true"),
   ("versioning", hasVersioningMark, "Enable versioning")]

/-- Source function validateS3Bucket of src/validator.ts. -/
def validateS3Bucket (code : List Char) (defaults : List (String × ConfigValue)) :
    List Violation :=
  (s3Checks.filterMap (fun check =>
    if truthyOpt (lookupSetting defaults check.1) && !(check.2.1 code) then
      some { ruleId := "s3_security_default", severity := Severity.warn,
             message := "S3 bucket should have " ++ check.1 ++ " enabled",
             line := none, suggestion := some check.2.2 }
    else none)) ++
  (if truthyOpt (lookupSetting defaults "encryption") && !(hasEncryptionWord code) then
    [{ ruleId := "s3_security_default", severity := Severity.warn,
       message := "S3 bucket should have encryption enabled", line := none,
       suggestion := some ("Enable encryption (e.g., encryption = \"" ++
         (match lookupSetting defaults "encryption" with
          | some v => jsToString v
          | none => "undefined") ++ "\")") }]
  else [])

/-- Source function validateRDS of src/validator.ts. -/
def validateRDS (code : List Char) (defaults : List (String × ConfigValue)) :
    List Violation :=
  (if truthyOpt (lookupSetting defaults "storage_encrypted") &&
      !(hasKeyEqTrue "storage_encrypted" code) then
    [{ ruleId := "rds_security_default", severity := Severity.warn,
       message := "RDS instance should have storage_encrypted = true", line := none,
       suggestion := some "Set storage_encrypted = true" }]
  else []) ++
  (if truthyOpt (lookupSetting defaults "backup_retention_period") &&
      !(anySuffix (fun cs => (stripLitCI "backup_retention_period".data cs).isSome) code) then
    [{ ruleId := "rds_security_default", severity := Severity.warn,
       message := "RDS instance should specify backup_retention_period", line := none,
       suggestion := some "Set backup_retention_period = 7 (or higher)" }]
  else [])

/-- Match of resource backslash-s+ quote aws_s3_bucket quote (flag i) at the
head of the input. -/
def s3ResourceAt (cs : List Char) : Bool :=
  match stripLitCI "resource".data cs with
  | none => false
  | some r1 =>
    match r1 with
    | c :: r2 =>
      jsWs c &&
        (match stripLitCI "\"aws_s3_bucket\"".data (r2.dropWhile jsWs) with
         | some _ => true
         | none => false)
    | [] => false

/-- Test, at the head of the input, of a dot-star run (the JavaScript dot,
excluding line terminators) followed by a continuation. -/
def dotStarThen (k : List Char → Bool) : List Char → Bool
  | [] => k []
  | c :: rest =>
    k (c :: rest) ||
      (!(c == '\n' || c == '\r' || c.toNat == 0x2028 || c.toNat == 0x2029) &&
        dotStarThen k rest)

/-- Match of resource backslash-s+ quote aws_db_instance quote (flag i) at
the head of the input: the first alternative of the RDS marker regex. -/
def dbResourceAt (cs : List Char) : Bool :=
  match stripLitCI "resource".data cs with
  | none => false
  | some r1 =>
    match r1 with
    | c :: r2 =>
      jsWs c &&
        (match stripLitCI "\"aws_db_instance\"".data (r2.dropWhile jsWs) with
         | some _ => true
         | none => false)
    | [] => false

/-- Match of module backslash-s+ quote dot-star rds (flag i) at the head of
the input: the second alternative of the RDS marker regex. -/
def moduleRdsAt (cs : List Char) : Bool :=
  match stripLitCI "module".data cs with
  | none => false
  | some r1 =>
    match r1 with
    | c :: r2 =>
      jsWs c &&
        (match r2.dropWhile jsWs with
         | '"' :: r3 => dotStarThen (fun r4 => (stripLitCI "rds".data r4).isSome) r3
         | _ => false)
    | [] => false

/-- Source function validateSecurityDefaults of src/validator.ts. -/
def validateSecurityDefaults (code : String) (config : TerraformStyleConfig) :
    List Violation :=
  let securityDefaults := config.security_defaults.getD
    { s3_bucket := none, rds := none }
  (match securityDefaults.s3_bucket with
   | some d =>
     if anySuffix s3ResourceAt code.data then validateS3Bucket code.data d else []
   | none => []) ++
  (match securityDefaults.rds with
   | some d =>
     if anySuffix (fun cs => dbResourceAt cs || moduleRdsAt cs) code.data then
       validateRDS code.data d
     else []
   | none => [])

/-! ## Naming-convention check (validateNamingConventions of src/validator.ts) -/

/-- Match of the placeholder regex langle [caret-rangle]+ rangle at the head
of the input, returning the total match length. -/
def placeholderAt (cs : List Char) : Option Nat :=
  match cs with
  | '<' :: rest =>
    let inner := rest.takeWhile (fun c => !(c == '>'))
    if inner.length == 0 then none
    else
      match rest.drop inner.length with
      | '>' :: _ => some (inner.length + 2)
      | _ => none
  | _ => none

/-- Number of non-overlapping matches of the placeholder regex (global
flag), source expression (namingFormat.match(...) or []).length. -/
def countPlaceholdersAux : Nat → List Char → Nat
  | 0, _ => 0
  | _ + 1, [] => 0
  | fuel + 1, c :: rest =>
    match placeholderAt (c :: rest) with
    | some len => 1 + countPlaceholdersAux fuel (rest.drop (len - 1))
    | none => countPlaceholdersAux fuel rest

/-- Wrapper passing enough fuel: every step consumes at least one character. -/
def countPlaceholders (cs : List Char) : Nat :=
  countPlaceholdersAux cs.length cs

/-- Match of the name-assignment regex name backslash-s* = backslash-s*
[quote] ([caret-quotes]+) [quote] at the head of the input, returning the
total match length and the captured value. -/
def nameAssignAt (cs : List Char) : Option (Nat × List Char) :=
  match stripLit "name".data cs with
  | none => none
  | some r1 =>
    let ws1 := r1.takeWhile jsWs
    match r1.drop ws1.length with
    | '=' :: r2 =>
      let ws2 := r2.takeWhile jsWs
      match r2.drop ws2.length with
      | q :: r3 =>
        if isQuote q then
          let value := r3.takeWhile (fun c => !(isQuote c))
          if value.length == 0 then none
          else
            match r3.drop value.length with
            | q2 :: _ =>
              if isQuote q2 then
                some (4 + ws1.length + 1 + ws2.length + 1 + value.length + 1, value)
              else none
            | [] => none
        else none
      | [] => none
    | _ => none

/-- All matches of the global name-assignment regex (source matchAll),
returning for each the absolute start index and the captured value. -/
def collectNameMatchesAux : Nat → List Char → Nat → List (Nat × List Char)
  | 0, _, _ => []
  | _ + 1, [], _ => []
  | fuel + 1, c :: rest, idx =>
    match nameAssignAt (c :: rest) with
    | some m => (idx, m.2) :: collectNameMatchesAux fuel (rest.drop (m.1 - 1)) (idx + m.1)
    | none => collectNameMatchesAux fuel rest (idx + 1)

/-- Wrapper passing enough fuel: every step consumes at least one character. -/
def collectNameMatches (cs : List Char) (idx : Nat) : List (Nat × List Char) :=
  collectNameMatchesAux cs.length cs idx

/-- The part count of String.prototype.split on a hyphen: one more than the
number of hyphens. -/
def splitPartsCount (name : List Char) : Nat :=
  (name.filter (fun c => c == '-')).length + 1

/-- Source function validateNamingConventions of src/validator.ts. -/
def validateNamingConventions (code : String) (config : TerraformStyleConfig) :
    List Violation :=
  match config.naming.bind (fun n => n.resource_format) with
  | none => []
  | some namingFormat =>
    let componentCount := countPlaceholders namingFormat.data
    if componentCount < 2 then []
    else
      (collectNameMatches code.data 0).filterMap (fun m =>
        let name := String.mk m.2
        if name.startsWith "$\x7b" || name.startsWith "var." then none
        else
          let parts := splitPartsCount m.2
          if parts < componentCount then
            some { ruleId := "naming_convention", severity := Severity.info,
                   message := "Resource name \"" ++ name ++
                     "\" doesn\x27t follow format: " ++ namingFormat,
                   line := some (getLineNumber code.data m.1),
                   suggestion := some ("Use format: " ++ namingFormat ++
                     " (expected " ++ toString componentCount ++ "+ parts, got " ++
                     toString parts ++ ")") }
          else none)

/-! ## Top-level validation (validateSnippet of src/validator.ts) -/

/-- Source function validateSnippet of src/validator.ts.  The filePath
argument is accepted for caller context only, exactly as in the source.  A
none result embeds the run in which the forbidden-pattern exec loop never
terminates. -/
def validateSnippet (code : String) (config : TerraformStyleConfig)
    (filePath : Option String) : Option ValidationResult :=
  let v1 := validateRequiredTags code config
  match validateForbiddenPatterns code config with
  | none => none
  | some v2 =>
    let v3 := validateSecurityDefaults code config
    let v4 := validateNamingConventions code config
    let violations := v1 ++ v2 ++ v3 ++ v4
    some { valid := (violations.filter
             (fun v => v.severity == Severity.error)).length == 0,
           violations := violations }

/-! ## Generator (src/generator.ts) -/

/-- Source: interface GenerateResourceParams of src/generator.ts. -/
structure GenerateResourceParams where
  resourceType : String
  env : String
  service : String
  purpose : Option String
  extraTags : Option (List (String × String))
deriving DecidableEq, Repr

/-- Global replacement of a literal pattern (the source uses
String.prototype.replace with a global literal regex): left-to-right,
non-overlapping, the replacement text not rescanned. -/
def replaceAllLAux (pat repl : List Char) : Nat → List Char → List Char
  | 0, cs => cs
  | _ + 1, [] => []
  | fuel + 1, c :: rest =>
    if pat.length != 0 && pat.isPrefixOf (c :: rest) then
      repl ++ replaceAllLAux pat repl fuel (rest.drop (pat.length - 1))
    else c :: replaceAllLAux pat repl fuel rest

/-- Wrapper passing enough fuel: every step consumes at least one character,
so the fuel never runs out before the end of the input. -/
def replaceAllL (pat repl cs : List Char) : List Char :=
  replaceAllLAux pat repl cs.length cs

/-- Source function buildResourceName of src/generator.ts.  The source guard
if (!format) treats an absent and an empty resource_format alike as no
naming format, because the empty string is falsy in JavaScript, so both take
the service-env fallback; a present but empty purpose is likewise falsy in
the fallback conditional and empty in the template substitution. -/
def buildResourceName (service env : String) (purpose : Option String)
    (config : TerraformStyleConfig) : String :=
  let format := (config.naming.bind (fun n => n.resource_format)).getD ""
  if format == "" then
    match purpose with
    | some p => if p == "" then service ++ "-" ++ env else service ++ "-" ++ env ++ "-" ++ p
    | none => service ++ "-" ++ env
  else
    String.mk (replaceAllL "--".data "-".data
      (replaceAllL "<extra?>".data (purpose.getD "").data
        (replaceAllL "<component>".data service.data
          (replaceAllL "<env>".data env.data
            (replaceAllL "<project>".data "$\x7blocal.project\x7d".data format.data)))))

/-- The merge of the two tag records by object spread, default tags first,
extra tags overriding on key collision in place and otherwise appended in
order. -/
def mergeTags (defaultTags extraTags : List (String × String)) :
    List (String × String) :=
  defaultTags.map (fun kv => (kv.1, (lookupStr extraTags kv.1).getD kv.2)) ++
    extraTags.filter (fun kv => (lookupStr defaultTags kv.1).isNone)

/-- Source function buildTags of src/generator.ts. -/
def buildTags (extraTags : List (String × String)) (config : TerraformStyleConfig) :
    String :=
  let defaultTags := (config.tagging.bind (fun t => t.defaults)).getD []
  let allTags := mergeTags defaultTags extraTags
  if allTags.length == 0 then "  tags = local.default_tags"
  else
    "  tags = \x7b\n" ++
      joinSep "\n" (allTags.map (fun kv => "    " ++ kv.1 ++ " = \"" ++ kv.2 ++ "\"")) ++
      "\n  \x7d"

/-- Template interpolation of (value or false): the value when truthy,
otherwise the literal false. -/
def interpOrFalse (v : Option ConfigValue) : String :=
  if truthyOpt v then
    match v with
    | some x => jsToString x
    | none => "false"
  else "false"

/-- Template interpolation of (value or 7). -/
def interpOrSeven (v : Option ConfigValue) : String :=
  if truthyOpt v then
    match v with
    | some x => jsToString x
    | none => "7"
  else "7"

/-- Source function generateS3Bucket of src/generator.ts, with its template
literals transcribed byte for byte. -/
def generateS3Bucket (name tags : String) (config : TerraformStyleConfig) : String :=
  let securityDefaults :=
    (config.security_defaults.bind (fun s => s.s3_bucket)).getD []
  let code := "resource \"aws_s3_bucket\" \"this\" \x7b\n  bucket = \"" ++ name ++
    "\"\n\n" ++ tags ++ "\n\x7d"
  let code := if truthyOpt (lookupSetting securityDefaults "versioning") then
      code ++ "\n\nresource \"aws_s3_bucket_versioning\" \"this\" \x7b\n  bucket = aws_s3_bucket.this.id\n\n  versioning_configuration \x7b\n    status = \"Enabled\"\n  \x7d\n\x7d"
    else code
  let code := if truthyOpt (lookupSetting securityDefaults "block_public_acls") ||
      truthyOpt (lookupSetting securityDefaults "block_public_policy") then
      code ++ "\n\nresource \"aws_s3_bucket_public_access_block\" \"this\" \x7b\n  bucket = aws_s3_bucket.this.id\n\n  block_public_acls       = " ++
        interpOrFalse (lookupSetting securityDefaults "block_public_acls") ++
        "\n  block_public_policy     = " ++
        interpOrFalse (lookupSetting securityDefaults "block_public_policy") ++
        "\n  ignore_public_acls      = " ++
        interpOrFalse (lookupSetting securityDefaults "block_public_acls") ++
        "\n  restrict_public_buckets = " ++
        interpOrFalse (lookupSetting securityDefaults "block_public_policy") ++
        "\n\x7d"
    else code
  let code := if truthyOpt (lookupSetting securityDefaults "encryption") then
      let encType := if lookupSetting securityDefaults "encryption" ==
          some (ConfigValue.strV "aws:kms") then "aws:kms" else "AES256"
      code ++ "\n\nresource \"aws_s3_bucket_server_side_encryption_configuration\" \"this\" \x7b\n  bucket = aws_s3_bucket.this.id\n\n  rule \x7b\n    apply_server_side_encryption_by_default \x7b\n      sse_algorithm = \"" ++
        encType ++ "\"\n    \x7d\n  \x7d\n\x7d"
    else code
  code

/-- Source function generateRDSInstance of src/generator.ts. -/
def generateRDSInstance (name tags : String) (config : TerraformStyleConfig) : String :=
  let securityDefaults := (config.security_defaults.bind (fun s => s.rds)).getD []
  "resource \"aws_db_instance\" \"this\" \x7b\n  identifier = \"" ++ name ++
    "\"\n\n  engine         = \"postgres\"\n  engine_version = \"15.4\"\n  instance_class = \"db.t3.micro\"\n  \n  allocated_storage = 20\n  storage_encrypted = " ++
    interpOrFalse (lookupSetting securityDefaults "storage_encrypted") ++
    "\n\n  backup_retention_period = " ++
    interpOrSeven (lookupSetting securityDefaults "backup_retention_period") ++
    "\n  \n  # TODO: Configure username, password, vpc_security_group_ids, db_subnet_group_name\n\n" ++
    tags ++ "\n\x7d"

/-- Source function generateGenericResource of src/generator.ts. -/
def generateGenericResource (resourceType name tags : String) : String :=
  "# Generated stub for " ++ resourceType ++
    "\n# Please customize this resource according to your needs\n\nresource \"" ++
    resourceType ++ "\" \"this\" \x7b\n  name = \"" ++ name ++
    "\"\n\n  # TODO: Add required arguments for " ++ resourceType ++ "\n\n" ++
    tags ++ "\n\x7d"

/-- Source function generateResource of src/generator.ts. -/
def generateResource (params : GenerateResourceParams)
    (config : TerraformStyleConfig) : String :=
  let name := buildResourceName params.service params.env params.purpose config
  let tags := buildTags (params.extraTags.getD []) config
  if params.resourceType == "aws_s3_bucket" then generateS3Bucket name tags config
  else if params.resourceType == "aws_db_instance" then
    generateRDSInstance name tags config
  else generateGenericResource params.resourceType name tags

/-! ## Specification-side definitions and concrete inputs for the claims -/

/-- Specification-side list of forbidden-pattern violations: one violation
per non-overlapping match, in pattern-declaration order and, within one
pattern, in text-occurrence order, carrying the pattern description and the
line of the match start. -/
def specForbiddenViolations (code : List Char) (ps : List ForbiddenPattern) :
    List Violation :=
  ps.flatMap (fun p =>
    match p.matchExpr with
    | some r => (specMatches r code).map (fun m =>
        { ruleId := "forbidden_pattern", severity := Severity.error,
          message := p.description, line := some (getLineNumber code m.1),
          suggestion := some "Remove or replace this forbidden pattern" })
    | none => [])

/-- The same configuration with the forbidden-pattern list replaced. -/
def withForbidden (config : TerraformStyleConfig) (ps : List ForbiddenPattern) :
    TerraformStyleConfig :=
  { config with providers := some { forbidden_patterns := some ps } }

/-- Does the string contain two adjacent hyphens? -/
def containsDoubleHyphen (s : String) : Bool :=
  anySuffix (fun cs => (stripLit "--".data cs).isSome) s.data

/-- Round-trip policy of claim C1: S3 security defaults exactly
block_public_acls true, versioning true, encryption aws:kms; the default
tags cover the single required tag; no forbidden patterns. -/
def cfgRound : TerraformStyleConfig :=
  { naming := none,
    tagging := some { required_tags := some ["environment"],
                      defaults := some [("environment", "prod")] },
    providers := none,
    security_defaults := some
      { s3_bucket := some [("block_public_acls", ConfigValue.boolV true),
                           ("versioning", ConfigValue.boolV true),
                           ("encryption", ConfigValue.strV "aws:kms")],
        rds := none } }

/-- Round-trip generation request of claim C1. -/
def reqRound : GenerateResourceParams :=
  { resourceType := "aws_s3_bucket", env := "prod", service := "analytics",
    purpose := some "logs", extraTags := none }

/-- Policy with the naming format of claim C2. -/
def cfgFmt : TerraformStyleConfig :=
  { naming := some { resource_format := some "<project>-<env>-<component>-<extra?>" },
    tagging := none, providers := none, security_defaults := none }

/-- Policy with no naming format, for the fallback case of claim C2. -/
def cfgNoFmt : TerraformStyleConfig :=
  { naming := none, tagging := none, providers := none, security_defaults := none }

/-- Policy with an empty naming format string, which the source guard
if (!format) treats the same as no naming format. -/
def cfgEmptyFmt : TerraformStyleConfig :=
  { naming := some { resource_format := some "" },
    tagging := none, providers := none, security_defaults := none }

/-- Policy of claim C10: one required tag named owner. -/
def cfgOwnerTag : TerraformStyleConfig :=
  { naming := none,
    tagging := some { required_tags := some ["owner"], defaults := none },
    providers := none, security_defaults := none }

/-- Text of claim C10: the tag block has no key equal to owner, only the
longer key team_owner ending in the required tag name. -/
def codeOwnerTag : String := "tags = \x7b\n  team_owner = \"x\"\n\x7d"

/-- The compiled matcher of the regex a-star, which matches the empty
string. -/
def starA : Regex := Regex.star (Regex.char 'a')

/-- Policy whose single forbidden pattern compiles to a-star (for claims C6
and C8). -/
def cfgStarA : TerraformStyleConfig :=
  { naming := none, tagging := none,
    providers := some
      { forbidden_patterns :=
          some [{ description := "no runs of a", matchExpr := some starA }] },
    security_defaults := none }

/-- Policy whose single forbidden pattern compiles to the single-character
matcher a (witness input for the amended claim C6). -/
def cfgCharA : TerraformStyleConfig :=
  { naming := none, tagging := none,
    providers := some
      { forbidden_patterns :=
          some [{ description := "letter a", matchExpr := some (Regex.char 'a') }] },
    security_defaults := none }

/-- Policy whose single forbidden pattern fails to compile (witness input
for claim C7). -/
def cfgBadPattern : TerraformStyleConfig :=
  { naming := none, tagging := none,
    providers := some
      { forbidden_patterns :=
          some [{ description := "broken", matchExpr := none }] },
    security_defaults := none }

/-- Policy of the claim C5 witness: one required tag present in the text
tag block. -/
def cfgTagA : TerraformStyleConfig :=
  { naming := none,
    tagging := some { required_tags := some ["a"], defaults := none },
    providers := none, security_defaults := none }

/-- Text of the claim C5 witness. -/
def codeTagA : String := "tags = \x7ba = \"1\"\x7d"

/-! ## Claim theorems -/

/-- C1: the round-trip claim fails on the code: generating an aws_s3_bucket
resource under the policy with S3 security defaults block_public_acls true,
versioning true, encryption aws:kms (default tags covering the required tag,
no forbidden patterns) and validating the generated text against the same
policy yields a result with one warn-severity violation: the security check
pattern versioning backslash-s* [=brace] does not match the generated
aws_s3_bucket_versioning resource, whose only occurrences of the word are
followed by a quote or an underscore. -/
theorem C1_round_trip_versioning_warn :
    validateSnippet (generateResource reqRound cfgRound) cfgRound none =
      some { valid := true,
             violations := [{ ruleId := "s3_security_default",
                              severity := Severity.warn,
                              message := "S3 bucket should have versioning enabled",
                              line := none,
                              suggestion := some "Enable versioning" }] } := by
  set_option maxRecDepth 10000 in decide

/-- C2 counterexample: with the naming format of the claim and the request
env prod, service analytics, purpose absent, the synthesized name ends in a
hyphen, contradicting the claimed absence of a trailing hyphen. -/
theorem C2_counterexample_trailing_hyphen :
    (buildResourceName "analytics" "prod" none cfgFmt).data.getLast? = some '-' := by
  set_option maxRecDepth 2000 in decide

/-- C2 amended: with the naming format of the claim and the request env
prod, service analytics, and purpose absent or empty, the synthesized name
is the dollar-brace local.project reference followed by -prod-analytics-,
containing no doubled hyphen but ending in a trailing hyphen; with no naming
format configured (absent, or present but empty, which the source guard
treats alike as falsy) the same request yields exactly analytics-prod. -/
theorem C2_name_synthesis :
    buildResourceName "analytics" "prod" none cfgFmt =
        "$\x7blocal.project\x7d-prod-analytics-" ∧
    buildResourceName "analytics" "prod" (some "") cfgFmt =
        "$\x7blocal.project\x7d-prod-analytics-" ∧
    containsDoubleHyphen (buildResourceName "analytics" "prod" none cfgFmt) = false ∧
    buildResourceName "analytics" "prod" none cfgNoFmt = "analytics-prod" ∧
    buildResourceName "analytics" "prod" (some "") cfgNoFmt = "analytics-prod" ∧
    buildResourceName "analytics" "prod" none cfgEmptyFmt = "analytics-prod" ∧
    buildResourceName "analytics" "prod" (some "") cfgEmptyFmt = "analytics-prod" := by
  refine ⟨?_, ?_, ?_, ?_, ?_, ?_, ?_⟩ <;> set_option maxRecDepth 2000 in decide

/-- C9: the filePath hint never affects the result of validateSnippet: any
two hint values (including absent) give identical ValidationResults. -/
theorem C9_filePath_noninterference (code : String) (config : TerraformStyleConfig)
    (fp1 fp2 : Option String) :
    validateSnippet code config fp1 = validateSnippet code config fp2 := rfl

/-- C10: the required-tag test matches the tag name as a substring of a key:
with required tag owner and a tag block whose only key is team_owner, the
dynamically built key regex matches inside team_owner, so validateSnippet
emits no required_tag_missing violation (the result is entirely clean). -/
theorem C10_substring_tag_match :
    validateSnippet codeOwnerTag cfgOwnerTag none =
        some { valid := true, violations := [] } ∧
    tagPresent "owner" "\n  team_owner = \"x\"\n".data = true := by
  exact ⟨by set_option maxRecDepth 2000 in decide,
         by set_option maxRecDepth 2000 in decide⟩

/-- Helper: the length-of-error-filter test that the source stores in the
valid field holds exactly when no violation has severity error. -/
theorem errorFilter_empty_iff (L : List Violation) :
    (((L.filter (fun v => v.severity == Severity.error)).length == 0) = true) ↔
      ∀ v ∈ L, v.severity ≠ Severity.error := by
  simp [List.length_eq_zero, List.filter_eq_nil_iff]

/-- C3: whenever validateSnippet returns a result, its valid flag is true
exactly when no violation in its list has severity error; warn and info
violations never make it false. -/
theorem C3_valid_iff_no_error (code : String) (config : TerraformStyleConfig)
    (filePath : Option String) (res : ValidationResult)
    (h : validateSnippet code config filePath = some res) :
    res.valid = true ↔ ∀ v ∈ res.violations, v.severity ≠ Severity.error := by
  unfold validateSnippet at h
  cases hf : validateForbiddenPatterns code config with
  | none => rw [hf] at h; cases h
  | some v2 =>
    rw [hf] at h
    simp only [Option.some.injEq] at h
    subst h
    exact errorFilter_empty_iff _

/-- Witness for C3 at a concrete input. -/
theorem C3_witness :
    (validateSnippet "x" cfgNoFmt none = some { valid := true, violations := [] }) ∧
    (({ valid := true, violations := [] } : ValidationResult).valid = true ↔
      ∀ v ∈ ({ valid := true, violations := [] } : ValidationResult).violations,
        v.severity ≠ Severity.error) :=
  ⟨by decide, C3_valid_iff_no_error "x" cfgNoFmt none _ (by decide)⟩

/-- C8: the termination claim fails on the code: a forbidden pattern whose
expression matches the empty string (here a-star on the text b) makes the
source exec loop find the same zero-length match at lastIndex 0 forever, so
the loop body of validateForbiddenPatterns never exits no matter how many
iterations are run, and validateSnippet never returns a ValidationResult. -/
theorem C8_exec_loop_never_terminates :
    (∀ fuel, execLoopAux starA "b".data fuel 0 = none) ∧
    validateSnippet "b" cfgStarA none = none := by
  constructor
  · intro fuel
    induction fuel with
    | zero => rfl
    | succ n ih =>
      have hsl : searchLeftmost starA (List.drop 0 "b".data) = some (0, 0) := by decide
      simp only [execLoopAux, hsl]
      simp [ih]
  · decide

/-- Helper: every violation of the required-tag check carries one of its two
rule identifiers. -/
theorem validateRequiredTags_ruleId (code : String) (config : TerraformStyleConfig) :
    ∀ v ∈ validateRequiredTags code config,
      v.ruleId = "missing_tags_block" ∨ v.ruleId = "required_tag_missing" := by
  intro v hv
  simp only [validateRequiredTags] at hv
  split at hv
  · cases hv
  · split at hv
    · rw [List.mem_singleton.mp hv]; left; rfl
    · split at hv
      · rw [List.mem_singleton.mp hv]; right; rfl
      · cases hv

/-- Helper: every violation of one forbidden pattern carries the
forbidden_pattern rule identifier. -/
theorem forbiddenForPattern_ruleId (code : List Char) (p : ForbiddenPattern)
    (vp : List Violation) (h : forbiddenForPattern code p = some vp) :
    ∀ v ∈ vp, v.ruleId = "forbidden_pattern" := by
  unfold forbiddenForPattern at h
  split at h
  · cases h; intro v hv; cases hv
  · rcases Option.map_eq_some'.mp h with ⟨ms, _, hmap⟩
    subst hmap
    intro v hv
    rcases List.mem_map.mp hv with ⟨m, _, hm⟩
    rw [← hm]

/-- Helper: every violation of the forbidden-pattern check carries the
forbidden_pattern rule identifier. -/
theorem forbiddenLoop_ruleId (code : List Char) (ps : List ForbiddenPattern)
    (vs : List Violation) (h : forbiddenLoop code ps = some vs) :
    ∀ v ∈ vs, v.ruleId = "forbidden_pattern" := by
  induction ps generalizing vs with
  | nil =>
    unfold forbiddenLoop at h
    cases h
    intro v hv
    cases hv
  | cons p rest ih =>
    unfold forbiddenLoop at h
    cases hp : forbiddenForPattern code p with
    | none => rw [hp] at h; cases h
    | some vp =>
      rw [hp] at h
      cases hrest : forbiddenLoop code rest with
      | none => rw [hrest] at h; cases h
      | some vr =>
        rw [hrest] at h
        simp only [Option.map_some', Option.some.injEq] at h
        subst h
        intro v hv
        rcases List.mem_append.mp hv with hvp | hvr
        · exact forbiddenForPattern_ruleId code p vp hp v hvp
        · exact ih vr hrest v hvr

/-- Helper: every violation of the S3 security check carries the
s3_security_default rule identifier. -/
theorem validateS3Bucket_ruleId (code : List Char) (d : List (String × ConfigValue)) :
    ∀ v ∈ validateS3Bucket code d, v.ruleId = "s3_security_default" := by
  intro v hv
  unfold validateS3Bucket at hv
  rcases List.mem_append.mp hv with h | h
  · rcases List.mem_filterMap.mp h with ⟨a, _, ha⟩
    split at ha
    · obtain rfl := Option.some.inj ha
      rfl
    · cases ha
  · split at h
    · rw [List.mem_singleton.mp h]
    · cases h

/-- Helper: every violation of the RDS security check carries the
rds_security_default rule identifier. -/
theorem validateRDS_ruleId (code : List Char) (d : List (String × ConfigValue)) :
    ∀ v ∈ validateRDS code d, v.ruleId = "rds_security_default" := by
  intro v hv
  unfold validateRDS at hv
  rcases List.mem_append.mp hv with h | h <;> split at h
  · rw [List.mem_singleton.mp h]
  · cases h
  · rw [List.mem_singleton.mp h]
  · cases h

/-- Helper: every violation of the security-defaults check carries one of
the two security rule identifiers. -/
theorem validateSecurityDefaults_ruleId (code : String) (config : TerraformStyleConfig) :
    ∀ v ∈ validateSecurityDefaults code config,
      v.ruleId = "s3_security_default" ∨ v.ruleId = "rds_security_default" := by
  intro v hv
  simp only [validateSecurityDefaults] at hv
  rcases List.mem_append.mp hv with h | h
  · split at h
    · split at h
      · exact Or.inl (validateS3Bucket_ruleId _ _ v h)
      · cases h
    · cases h
  · split at h
    · split at h
      · exact Or.inr (validateRDS_ruleId _ _ v h)
      · cases h
    · cases h

/-- Helper: every violation of the naming-convention check carries the
naming_convention rule identifier. -/
theorem validateNamingConventions_ruleId (code : String) (config : TerraformStyleConfig) :
    ∀ v ∈ validateNamingConventions code config, v.ruleId = "naming_convention" := by
  intro v hv
  simp only [validateNamingConventions] at hv
  split at hv
  · cases hv
  · split at hv
    · cases hv
    · rcases List.mem_filterMap.mp hv with ⟨m, _, hm⟩
      split at hm
      · cases hm
      · split at hm
        · obtain rfl := Option.some.inj hm
          rfl
        · cases hm

/-- Helper: every violation of the naming-convention check has severity
info. -/
theorem validateNamingConventions_severity (code : String) (config : TerraformStyleConfig) :
    ∀ v ∈ validateNamingConventions code config, v.severity = Severity.info := by
  intro v hv
  simp only [validateNamingConventions] at hv
  split at hv
  · cases hv
  · split at hv
    · cases hv
    · rcases List.mem_filterMap.mp hv with ⟨m, _, hm⟩
      split at hm
      · cases hm
      · split at hm
        · obtain rfl := Option.some.inj hm
          rfl
        · cases hm

/-- Helper: a list all of whose violations miss a rule identifier filters to
the empty list on it. -/
theorem filter_ruleId_eq_nil {L : List Violation} {rid : String}
    (h : ∀ v ∈ L, v.ruleId ≠ rid) :
    L.filter (fun v => v.ruleId == rid) = [] :=
  List.filter_eq_nil_iff.mpr (fun v hv => by simp [h v hv])

/-- Helper: a list all of whose violations carry a rule identifier is fixed
by the filter on it. -/
theorem filter_ruleId_eq_self {L : List Violation} {rid : String}
    (h : ∀ v ∈ L, v.ruleId = rid) :
    L.filter (fun v => v.ruleId == rid) = L :=
  List.filter_eq_self.mpr (fun v hv => by simp [h v hv])

/-- Helper: with no tag block and a nonempty required-tag list, the
required-tag check returns exactly the missing_tags_block violation. -/
theorem validateRequiredTags_noBlock (code : String) (config : TerraformStyleConfig)
    (hb : findTagsBlock code.data 0 = none) (hr : requiredTagsOf config ≠ []) :
    validateRequiredTags code config =
      [{ ruleId := "missing_tags_block", severity := Severity.error,
         message := "No tags block found", line := none,
         suggestion := some ("Add a tags block with required tags: " ++
           joinSep ", " (requiredTagsOf config)) }] := by
  have hlen : ((requiredTagsOf config).length == 0) = false := by
    simp [List.length_eq_zero, hr]
  simp [validateRequiredTags, hlen, hb]

/-- Helper: with a tag block containing every required tag, the required-tag
check returns no violation. -/
theorem validateRequiredTags_allPresent (code : String) (config : TerraformStyleConfig)
    (idx : Nat) (content : List Char)
    (hb : findTagsBlock code.data 0 = some (idx, content))
    (ht : ∀ tag ∈ requiredTagsOf config, tagPresent tag content = true) :
    validateRequiredTags code config = [] := by
  have hmiss : (requiredTagsOf config).filter (fun tag => !(tagPresent tag content)) = [] :=
    List.filter_eq_nil_iff.mpr (fun t ht' => by simp [ht t ht'])
  simp only [validateRequiredTags, hb, hmiss]
  split
  · rfl
  · simp

/-- C4: for every text with no tag-collection block and every policy with at
least one required tag, any returned result contains exactly one violation
with rule identifier missing_tags_block, of severity error and with no line
number, and the result is invalid. -/
theorem C4_missing_tags_block (code : String) (config : TerraformStyleConfig)
    (filePath : Option String) (res : ValidationResult)
    (hb : findTagsBlock code.data 0 = none)
    (hr : requiredTagsOf config ≠ [])
    (h : validateSnippet code config filePath = some res) :
    res.violations.filter (fun v => v.ruleId == "missing_tags_block") =
      [{ ruleId := "missing_tags_block", severity := Severity.error,
         message := "No tags block found", line := none,
         suggestion := some ("Add a tags block with required tags: " ++
           joinSep ", " (requiredTagsOf config)) }] ∧
    res.valid = false := by
  have hv1 := validateRequiredTags_noBlock code config hb hr
  unfold validateSnippet at h
  cases hf : validateForbiddenPatterns code config with
  | none => rw [hf] at h; cases h
  | some v2 =>
    rw [hf] at h
    simp only [Option.some.injEq] at h
    subst h
    have hn2 : v2.filter (fun v => v.ruleId == "missing_tags_block") = [] :=
      filter_ruleId_eq_nil (fun v hv => by
        rw [forbiddenLoop_ruleId code.data (forbiddenPatternsOf config) v2 hf v hv]
        decide)
    have hn3 : (validateSecurityDefaults code config).filter
        (fun v => v.ruleId == "missing_tags_block") = [] :=
      filter_ruleId_eq_nil (fun v hv => by
        rcases validateSecurityDefaults_ruleId code config v hv with hx | hx <;>
          rw [hx] <;> decide)
    have hn4 : (validateNamingConventions code config).filter
        (fun v => v.ruleId == "missing_tags_block") = [] :=
      filter_ruleId_eq_nil (fun v hv => by
        rw [validateNamingConventions_ruleId code config v hv]; decide)
    constructor
    · show (validateRequiredTags code config ++ v2 ++ validateSecurityDefaults code config ++
        validateNamingConventions code config).filter (fun v => v.ruleId == "missing_tags_block") = _
      rw [List.filter_append, List.filter_append, List.filter_append, hv1, hn2, hn3, hn4]
      simp
    · show ((((validateRequiredTags code config ++ v2 ++ validateSecurityDefaults code config ++
        validateNamingConventions code config).filter
          (fun v => v.severity == Severity.error)).length == 0) = false)
      rw [List.filter_append, List.filter_append, List.filter_append, hv1]
      simp

/-- Witness for C4 at a concrete input. -/
theorem C4_witness :
    findTagsBlock "x".data 0 = none ∧
    requiredTagsOf cfgOwnerTag ≠ [] ∧
    (({ valid := false,
        violations := [{ ruleId := "missing_tags_block", severity := Severity.error,
                         message := "No tags block found", line := none,
                         suggestion := some "Add a tags block with required tags: owner" }] } :
        ValidationResult).violations.filter (fun v => v.ruleId == "missing_tags_block") =
      [{ ruleId := "missing_tags_block", severity := Severity.error,
         message := "No tags block found", line := none,
         suggestion := some "Add a tags block with required tags: owner" }] ∧
     ({ valid := false,
        violations := [{ ruleId := "missing_tags_block", severity := Severity.error,
                         message := "No tags block found", line := none,
                         suggestion := some "Add a tags block with required tags: owner" }] } :
        ValidationResult).valid = false) :=
  ⟨by decide, by decide,
   C4_missing_tags_block "x" cfgOwnerTag none _ (by decide) (by decide) (by decide)⟩

/-- C5: whenever the first tag block of the text contains, for every
required tag, a key matching it (case-insensitive, optionally quoted)
followed by an assignment operator, no required_tag_missing violation is
produced. -/
theorem C5_required_tags_present (code : String) (config : TerraformStyleConfig)
    (filePath : Option String) (res : ValidationResult) (idx : Nat) (content : List Char)
    (hb : findTagsBlock code.data 0 = some (idx, content))
    (ht : ∀ tag ∈ requiredTagsOf config, tagPresent tag content = true)
    (h : validateSnippet code config filePath = some res) :
    ∀ v ∈ res.violations, v.ruleId ≠ "required_tag_missing" := by
  have hv1 := validateRequiredTags_allPresent code config idx content hb ht
  unfold validateSnippet at h
  cases hf : validateForbiddenPatterns code config with
  | none => rw [hf] at h; cases h
  | some v2 =>
    rw [hf] at h
    simp only [Option.some.injEq] at h
    subst h
    intro v hv
    simp only [ValidationResult.violations] at hv
    rw [hv1] at hv
    simp only [List.nil_append] at hv
    rcases List.mem_append.mp hv with hv' | hv'
    · rcases List.mem_append.mp hv' with hv'' | hv''
      · rw [forbiddenLoop_ruleId code.data (forbiddenPatternsOf config) v2 hf v hv'']
        decide
      · rcases validateSecurityDefaults_ruleId code config v hv'' with hx | hx <;>
          rw [hx] <;> decide
    · rw [validateNamingConventions_ruleId code config v hv']
      decide

/-- Witness for C5 at a concrete input. -/
theorem C5_witness :
    findTagsBlock codeTagA.data 0 = some (0, "a = \"1\"".data) ∧
    (∀ tag ∈ requiredTagsOf cfgTagA, tagPresent tag "a = \"1\"".data = true) ∧
    ∀ v ∈ ({ valid := true, violations := [] } : ValidationResult).violations,
      v.ruleId ≠ "required_tag_missing" :=
  ⟨by decide, by decide,
   C5_required_tags_present codeTagA cfgTagA none _ 0 "a = \"1\"".data
     (by decide) (by decide) (by decide)⟩

/-- Helper: a match length never exceeds the input length. -/
theorem longestMatchLen_le (cs : List Char) : ∀ (r : Regex) (l : Nat),
    longestMatchLen r cs = some l → l ≤ cs.length := by
  induction cs with
  | nil =>
    intro r l h
    unfold longestMatchLen at h
    split at h <;> simp_all
  | cons c rest ih =>
    intro r l h
    unfold longestMatchLen at h
    cases hd : longestMatchLen (deriv c r) rest with
    | some l2 =>
      rw [hd] at h
      simp only [Option.some.injEq] at h
      subst h
      have := ih (deriv c r) l2 hd
      simp only [List.length_cons]
      omega
    | none =>
      rw [hd] at h
      split at h <;> simp_all <;> omega

theorem longestMatchLen_pos (r : Regex) (cs : List Char) (l : Nat)
    (hr : nullable r = false) (h : longestMatchLen r cs = some l) : 1 ≤ l := by
  cases cs with
  | nil =>
    unfold longestMatchLen at h
    rw [hr] at h
    cases h
  | cons c rest =>
    unfold longestMatchLen at h
    cases hd : longestMatchLen (deriv c r) rest with
    | some l2 => rw [hd] at h; simp only [Option.some.injEq] at h; omega
    | none => rw [hd] at h; rw [hr] at h; cases h

theorem searchLeftmost_bounds (r : Regex) (cs : List Char) : ∀ (off len : Nat),
    searchLeftmost r cs = some (off, len) → off + len ≤ cs.length := by
  induction cs with
  | nil =>
    intro off len h
    unfold searchLeftmost at h
    cases hd : longestMatchLen r ([] : List Char) with
    | some l =>
      rw [hd] at h
      simp only [Option.some.injEq, Prod.mk.injEq] at h
      obtain ⟨h0, hl⟩ := h
      subst h0; subst hl
      simpa using longestMatchLen_le [] r _ hd
    | none => rw [hd] at h; cases h
  | cons c rest ih =>
    intro off len h
    unfold searchLeftmost at h
    cases hd : longestMatchLen r (c :: rest) with
    | some l =>
      rw [hd] at h
      simp only [Option.some.injEq, Prod.mk.injEq] at h
      obtain ⟨h0, hl⟩ := h
      subst h0; subst hl
      simpa using longestMatchLen_le (c :: rest) r _ hd
    | none =>
      rw [hd] at h
      rcases Option.map_eq_some'.mp h with ⟨⟨o2, l2⟩, hrec, hpair⟩
      simp only [Prod.mk.injEq] at hpair
      obtain ⟨ho, hl⟩ := hpair
      subst ho; subst hl
      have := ih o2 l2 hrec
      simp only [List.length_cons]
      omega

theorem searchLeftmost_pos (r : Regex) (cs : List Char) (hr : nullable r = false) :
    ∀ (off len : Nat), searchLeftmost r cs = some (off, len) → 1 ≤ len := by
  induction cs with
  | nil =>
    intro off len h
    unfold searchLeftmost at h
    cases hd : longestMatchLen r ([] : List Char) with
    | some l =>
      rw [hd] at h
      simp only [Option.some.injEq, Prod.mk.injEq] at h
      obtain ⟨_, hl⟩ := h
      subst hl
      exact longestMatchLen_pos r [] _ hr hd
    | none => rw [hd] at h; cases h
  | cons c rest ih =>
    intro off len h
    unfold searchLeftmost at h
    cases hd : longestMatchLen r (c :: rest) with
    | some l =>
      rw [hd] at h
      simp only [Option.some.injEq, Prod.mk.injEq] at h
      obtain ⟨_, hl⟩ := h
      subst hl
      exact longestMatchLen_pos r (c :: rest) _ hr hd
    | none =>
      rw [hd] at h
      rcases Option.map_eq_some'.mp h with ⟨⟨o2, l2⟩, hrec, hpair⟩
      simp only [Prod.mk.injEq] at hpair
      obtain ⟨_, hl⟩ := hpair
      subst hl
      exact ih o2 l2 hrec

theorem execLoopAux_eq_spec (r : Regex) (s : List Char) (hr : nullable r = false) :
    ∀ (fuelE : Nat) (fuelS : Nat) (li : Nat), li ≤ s.length →
      s.length + 1 - li ≤ fuelE → s.length - li + 1 ≤ fuelS →
      execLoopAux r s fuelE li = some (specMatchesFromAux r fuelS (s.drop li) li) := by
  intro fuelE
  induction fuelE with
  | zero => intro fuelS li h1 h2 _; omega
  | succ fe ih =>
    intro fuelS li h1 h2 h3
    cases fuelS with
    | zero => omega
    | succ fs =>
      unfold execLoopAux
      rw [if_neg (by omega)]
      cases hdrop : s.drop li with
      | nil =>
        have hsl : searchLeftmost r ([] : List Char) = none := by
          simp [searchLeftmost, longestMatchLen, hr]
        rw [hsl]
        conv_rhs => rw [specMatchesFromAux]
        rw [hr]
        rfl
      | cons c rest =>
        cases hsl : searchLeftmost r (c :: rest) with
        | none =>
          conv_rhs => rw [specMatchesFromAux]
          rw [hsl]
        | some m =>
          obtain ⟨off, len⟩ := m
          have hlen1 : 1 ≤ len := searchLeftmost_pos r (c :: rest) hr off len hsl
          have hbnd : off + len ≤ (c :: rest).length :=
            searchLeftmost_bounds r (c :: rest) off len hsl
          have hdl : (c :: rest).length = s.length - li := by
            rw [← hdrop, List.length_drop]
          have hrest : rest = s.drop (li + 1) := by
            have h01 := congrArg (List.drop 1) hdrop
            rw [List.drop_drop] at h01
            simpa using h01.symm
          have hdrop2 : rest.drop (off + len - 1) = s.drop (li + off + len) := by
            rw [hrest, List.drop_drop]
            congr 1
            omega
          have hrec := ih fs (li + off + len)
            (by simp only [List.length_cons] at hbnd hdl; omega)
            (by omega) (by simp only [List.length_cons] at hbnd hdl; omega)
          simp only []
          rw [hrec]
          simp only [Option.map_some']
          conv_rhs => rw [specMatchesFromAux]
          rw [hsl]
          simp only []
          have hmax : max len 1 = len := by omega
          rw [hmax, hdrop2]

/-- Helper: for a regex that does not accept the empty string, the source
exec loop terminates with exactly the specification-side non-overlapping
matches. -/
theorem execMatches_eq_spec (r : Regex) (s : List Char) (hr : nullable r = false) :
    execMatches r s = some (specMatches r s) := by
  unfold execMatches specMatches specMatchesFrom
  have := execLoopAux_eq_spec r s hr (s.length + 2) (s.length + 1) 0
    (Nat.zero_le _) (by omega) (by omega)
  simpa using this

/-- Helper: when every declared pattern compiles to a matcher that does not
accept the empty string, the forbidden-pattern check terminates and returns
exactly the specification-side violation list. -/
theorem forbiddenLoop_eq_spec (code : List Char) (ps : List ForbiddenPattern)
    (hps : ∀ p ∈ ps, p.matchExpr.map nullable = some false) :
    forbiddenLoop code ps = some (specForbiddenViolations code ps) := by
  induction ps with
  | nil => rfl
  | cons p rest ih =>
    obtain ⟨r, hr, hnull⟩ : ∃ r, p.matchExpr = some r ∧ nullable r = false := by
      have hp := hps p (by simp)
      rcases Option.map_eq_some'.mp hp with ⟨r, hr, hn⟩
      exact ⟨r, hr, hn⟩
    have hrest := ih (fun q hq => hps q (by simp [hq]))
    unfold forbiddenLoop forbiddenForPattern
    rw [hr]
    simp only []
    rw [execMatches_eq_spec r code hnull]
    simp only [Option.map_some']
    rw [hrest]
    simp only [Option.map_some', Option.some.injEq]
    unfold specForbiddenViolations
    rw [List.flatMap_cons, hr]

/-- Helper: every specification-side forbidden violation carries the
forbidden_pattern rule identifier. -/
theorem specForbiddenViolations_ruleId (code : List Char) (ps : List ForbiddenPattern) :
    ∀ v ∈ specForbiddenViolations code ps, v.ruleId = "forbidden_pattern" := by
  intro v hv
  unfold specForbiddenViolations at hv
  rcases List.mem_flatMap.mp hv with ⟨p, _, hp⟩
  split at hp
  · rcases List.mem_map.mp hp with ⟨m, _, hm⟩
    rw [← hm]
  · cases hp

/-- C6 counterexample: the claim quantifies over every policy whose pattern
expressions all compile, but a compiled pattern that matches the empty
string (a-star) makes the exec loop diverge: on the text b the code returns
no ValidationResult at all, while the non-overlapping match count of the
declared pattern is 2, so no violation list with two forbidden_pattern
entries is ever produced. -/
theorem C6_counterexample_empty_match :
    validateSnippet "bb" cfgStarA none = none ∧
    specMatches starA "bb".data = [(0, 0), (1, 0), (2, 0)] := by
  exact ⟨by decide, by decide⟩

/-- C6 amended: for every text and every policy whose forbidden-pattern
expressions all compile to matchers that cannot match the empty string,
validateSnippet returns a result whose forbidden_pattern violations are
exactly one per non-overlapping match of the declared patterns, in
pattern-declaration order and, within one pattern, in text-occurrence order,
each carrying the pattern description as its message and the line number of
the match start. -/
theorem C6_forbidden_pattern_violations (code : String) (config : TerraformStyleConfig)
    (filePath : Option String)
    (hps : ∀ p ∈ forbiddenPatternsOf config, p.matchExpr.map nullable = some false) :
    ∃ res, validateSnippet code config filePath = some res ∧
      res.violations.filter (fun v => v.ruleId == "forbidden_pattern") =
        specForbiddenViolations code.data (forbiddenPatternsOf config) := by
  have hfl := forbiddenLoop_eq_spec code.data (forbiddenPatternsOf config) hps
  have hvs : validateSnippet code config filePath = some
      { valid := (((validateRequiredTags code config ++
          specForbiddenViolations code.data (forbiddenPatternsOf config) ++
          validateSecurityDefaults code config ++
          validateNamingConventions code config).filter
            (fun v => v.severity == Severity.error)).length == 0),
        violations := validateRequiredTags code config ++
          specForbiddenViolations code.data (forbiddenPatternsOf config) ++
          validateSecurityDefaults code config ++
          validateNamingConventions code config } := by
    unfold validateSnippet validateForbiddenPatterns
    rw [hfl]
  refine ⟨_, hvs, ?_⟩
  show ((validateRequiredTags code config ++
      specForbiddenViolations code.data (forbiddenPatternsOf config) ++
      validateSecurityDefaults code config ++
      validateNamingConventions code config).filter
        (fun v => v.ruleId == "forbidden_pattern")) = _
  rw [List.filter_append, List.filter_append, List.filter_append]
  rw [filter_ruleId_eq_nil (fun v hv => by
    rcases validateRequiredTags_ruleId code config v hv with hx | hx <;> rw [hx] <;> decide)]
  rw [filter_ruleId_eq_self
    (specForbiddenViolations_ruleId code.data (forbiddenPatternsOf config))]
  rw [filter_ruleId_eq_nil (fun v hv => by
    rcases validateSecurityDefaults_ruleId code config v hv with hx | hx <;>
      rw [hx] <;> decide)]
  rw [filter_ruleId_eq_nil (fun v hv => by
    rw [validateNamingConventions_ruleId code config v hv]; decide)]
  simp

/-- Witness for the amended C6 at a concrete input: the pattern a matches
banana three times. -/
theorem C6_witness :
    (∀ p ∈ forbiddenPatternsOf cfgCharA, p.matchExpr.map nullable = some false) ∧
    ∃ res, validateSnippet "banana" cfgCharA none = some res ∧
      res.violations.filter (fun v => v.ruleId == "forbidden_pattern") =
        specForbiddenViolations "banana".data (forbiddenPatternsOf cfgCharA) :=
  ⟨by decide, C6_forbidden_pattern_violations "banana" cfgCharA none (by decide)⟩

/-- Helper: dropping one forbidden pattern whose expression fails to compile
does not change the outcome of the forbidden-pattern loop. -/
theorem forbiddenLoop_skip_bad (code : List Char) (ps1 ps2 : List ForbiddenPattern)
    (bad : ForbiddenPattern) (hbad : bad.matchExpr = none) :
    forbiddenLoop code (ps1 ++ bad :: ps2) = forbiddenLoop code (ps1 ++ ps2) := by
  induction ps1 with
  | nil =>
    simp only [List.nil_append]
    conv_lhs => rw [forbiddenLoop]
    unfold forbiddenForPattern
    rw [hbad]
    cases h : forbiddenLoop code ps2 <;> simp
  | cons q qs ih =>
    simp only [List.cons_append]
    conv_lhs => rw [forbiddenLoop]
    conv_rhs => rw [forbiddenLoop]
    rw [ih]

/-- C7: a forbidden pattern whose expression fails to compile is skipped and
only it: validateSnippet on a policy containing the bad pattern returns
exactly the same ValidationResult as on the policy with that pattern
removed, so every other pattern and every other check still contributes, and
the call still returns a result rather than raising. -/
theorem C7_bad_pattern_skipped (code : String) (config : TerraformStyleConfig)
    (filePath : Option String) (ps1 ps2 : List ForbiddenPattern) (bad : ForbiddenPattern)
    (hbad : bad.matchExpr = none)
    (hps : forbiddenPatternsOf config = ps1 ++ bad :: ps2) :
    validateSnippet code config filePath =
      validateSnippet code (withForbidden config (ps1 ++ ps2)) filePath := by
  have h2 : validateForbiddenPatterns code config =
      validateForbiddenPatterns code (withForbidden config (ps1 ++ ps2)) := by
    unfold validateForbiddenPatterns
    rw [hps, show forbiddenPatternsOf (withForbidden config (ps1 ++ ps2)) = ps1 ++ ps2 from rfl]
    exact forbiddenLoop_skip_bad code.data ps1 ps2 bad hbad
  unfold validateSnippet
  rw [h2]
  rfl

/-- Witness for C7 at a concrete input. -/
theorem C7_witness :
    ({ description := "broken", matchExpr := none } : ForbiddenPattern).matchExpr = none ∧
    forbiddenPatternsOf cfgBadPattern =
      [] ++ ({ description := "broken", matchExpr := none } : ForbiddenPattern) :: [] ∧
    validateSnippet "x" cfgBadPattern none =
      validateSnippet "x" (withForbidden cfgBadPattern ([] ++ [])) none :=
  ⟨rfl, rfl, C7_bad_pattern_skipped "x" cfgBadPattern none [] [] _ rfl rfl⟩

end TfDialect
